import Mathlib

/-!
Verification of the `ElasticityTest` repository against its specification.

The development shallowly embeds the relevant C++ code in Lean:

* `src/include/basis_funs.tpp` — the `BasisQ1<dim>` Q1 trace-function class
  (constructors, `set_index`, `vector_value`, `vector_value_list`,
  `tensor_value_list`) for `dim = 2` and `dim = 3`;
* `src/source/main.cxx` — command-line parsing and exit behaviour;
* `src/include/forces_and_lame_parameters.h` — the `BodyForce` constructor
  and the `LamePrm` material model (whose `value` implementation is not part
  of the repository sources and is therefore modelled from the spec).

Real (`double`) arithmetic is embedded as exact rational arithmetic `ℚ`;
`Point<2>` becomes `ℚ × ℚ`, `Point<3>` becomes `ℚ × ℚ × ℚ`,
`Vector<double>` of length `dim` becomes `Fin dim → ℚ`, and
`FullMatrix<double>` of size n×n becomes `Matrix (Fin n) (Fin n) ℚ`.
-/

/-- The tensor-product monomials `{1, x1, x2, x1*x2}` evaluated at a 2D point,
in the order used when `BasisQ1<2>::BasisQ1` fills `point_matrix`
(`basis_funs.tpp` lines 31–34). -/
def mono2 (p : ℚ × ℚ) : Fin 4 → ℚ :=
  ![1, p.1, p.2, p.1 * p.2]

/-- The tensor-product monomials `{1, x1, x2, x3, x1*x2, x2*x3, x1*x3, x1*x2*x3}`
evaluated at a 3D point, in the order used when `BasisQ1<3>::BasisQ1` fills
`point_matrix` (`basis_funs.tpp` lines 55–62). -/
def mono3 (p : ℚ × ℚ × ℚ) : Fin 8 → ℚ :=
  ![1, p.1, p.2.1, p.2.2, p.1 * p.2.1, p.2.1 * p.2.2, p.1 * p.2.2,
    p.1 * p.2.1 * p.2.2]

/-- The 4×4 matrix `point_matrix` built by `BasisQ1<2>::BasisQ1` from a cell:
row `i` holds the monomials evaluated at vertex `i`. -/
def pointMatrix2 (cell : Fin 4 → ℚ × ℚ) : Matrix (Fin 4) (Fin 4) ℚ :=
  Matrix.of fun i j => mono2 (cell i) j

/-- The 8×8 matrix `point_matrix` built by `BasisQ1<3>::BasisQ1` from a cell:
row `i` holds the monomials evaluated at vertex `i`. -/
def pointMatrix3 (cell : Fin 8 → ℚ × ℚ × ℚ) : Matrix (Fin 8) (Fin 8) ℚ :=
  Matrix.of fun i j => mono3 (cell i) j

/-- The matrix `coeff_matrix` computed by `BasisQ1<2>::BasisQ1` via
`coeff_matrix.invert(point_matrix)` (`basis_funs.tpp` line 38): in exact
arithmetic, the inverse of `point_matrix`, written with the explicit
determinant–adjugate formula so that it is computable. -/
def coeffMatrix2 (cell : Fin 4 → ℚ × ℚ) : Matrix (Fin 4) (Fin 4) ℚ :=
  ((pointMatrix2 cell).det)⁻¹ • (pointMatrix2 cell).adjugate

/-- The matrix `coeff_matrix` computed by `BasisQ1<3>::BasisQ1` via
`coeff_matrix.invert(point_matrix)` (`basis_funs.tpp` line 66). -/
def coeffMatrix3 (cell : Fin 8 → ℚ × ℚ × ℚ) : Matrix (Fin 8) (Fin 8) ℚ :=
  ((pointMatrix3 cell).det)⁻¹ • (pointMatrix3 cell).adjugate

/-- The scalar polynomial value computed by `BasisQ1<2>::vector_value`
(`basis_funs.tpp` lines 83–86) from column `j` of a coefficient matrix `C`. -/
def traceValue2 (C : Matrix (Fin 4) (Fin 4) ℚ) (j : Fin 4) (p : ℚ × ℚ) : ℚ :=
  C 0 j + C 1 j * p.1 + C 2 j * p.2 + C 3 j * p.1 * p.2

/-- The scalar polynomial value computed by `BasisQ1<3>::vector_value`
(`basis_funs.tpp` lines 98–105) from column `j` of a coefficient matrix `C`. -/
def traceValue3 (C : Matrix (Fin 8) (Fin 8) ℚ) (j : Fin 8) (p : ℚ × ℚ × ℚ) : ℚ :=
  C 0 j + C 1 j * p.1 + C 2 j * p.2.1 + C 3 j * p.2.2 +
    C 4 j * p.1 * p.2.1 + C 5 j * p.2.1 * p.2.2 + C 6 j * p.1 * p.2.2 +
    C 7 j * p.1 * p.2.1 * p.2.2

lemma traceValue2_eq_sum (C : Matrix (Fin 4) (Fin 4) ℚ) (j : Fin 4)
    (p : ℚ × ℚ) : traceValue2 C j p = ∑ r : Fin 4, mono2 p r * C r j := by
  rw [Fin.sum_univ_four, show mono2 p 0 = 1 from rfl,
    show mono2 p 1 = p.1 from rfl, show mono2 p 2 = p.2 from rfl,
    show mono2 p 3 = p.1 * p.2 from rfl, traceValue2]
  ring

lemma traceValue3_eq_sum (C : Matrix (Fin 8) (Fin 8) ℚ) (j : Fin 8)
    (p : ℚ × ℚ × ℚ) : traceValue3 C j p = ∑ r : Fin 8, mono3 p r * C r j := by
  rw [Fin.sum_univ_eight, show mono3 p 0 = 1 from rfl,
    show mono3 p 1 = p.1 from rfl, show mono3 p 2 = p.2.1 from rfl,
    show mono3 p 3 = p.2.2 from rfl, show mono3 p 4 = p.1 * p.2.1 from rfl,
    show mono3 p 5 = p.2.1 * p.2.2 from rfl,
    show mono3 p 6 = p.1 * p.2.2 from rfl,
    show mono3 p 7 = p.1 * p.2.1 * p.2.2 from rfl, traceValue3]
  ring

lemma coeffMatrix2_eq_inv (cell : Fin 4 → ℚ × ℚ) :
    coeffMatrix2 cell = (pointMatrix2 cell)⁻¹ := by
  rw [coeffMatrix2, Matrix.inv_def, Ring.inverse_eq_inv]

lemma coeffMatrix3_eq_inv (cell : Fin 8 → ℚ × ℚ × ℚ) :
    coeffMatrix3 cell = (pointMatrix3 cell)⁻¹ := by
  rw [coeffMatrix3, Matrix.inv_def, Ring.inverse_eq_inv]

/-- C1: for every non-degenerate coarse cell (invertible vertex-monomial
evaluation matrix), the coefficient matrix built by the `BasisQ1` constructor
is a two-sided inverse of the vertex-monomial evaluation matrix, and the
`v`-th trace polynomial evaluated at vertex `w` is exactly the Kronecker
delta `δ_{vw}`, both in 2D (4 vertices) and in 3D (8 vertices). -/
theorem basisQ1_coeff_matrix_inverse_and_delta
    (cell2 : Fin 4 → ℚ × ℚ) (cell3 : Fin 8 → ℚ × ℚ × ℚ)
    (h2 : (pointMatrix2 cell2).det ≠ 0) (h3 : (pointMatrix3 cell3).det ≠ 0) :
    (pointMatrix2 cell2 * coeffMatrix2 cell2 = 1 ∧
      coeffMatrix2 cell2 * pointMatrix2 cell2 = 1 ∧
      ∀ v w : Fin 4,
        traceValue2 (coeffMatrix2 cell2) v (cell2 w) =
          if v = w then 1 else 0) ∧
    (pointMatrix3 cell3 * coeffMatrix3 cell3 = 1 ∧
      coeffMatrix3 cell3 * pointMatrix3 cell3 = 1 ∧
      ∀ v w : Fin 8,
        traceValue3 (coeffMatrix3 cell3) v (cell3 w) =
          if v = w then 1 else 0) := by
  have hu2 : IsUnit (pointMatrix2 cell2).det := isUnit_iff_ne_zero.mpr h2
  have hu3 : IsUnit (pointMatrix3 cell3).det := isUnit_iff_ne_zero.mpr h3
  have m2 : pointMatrix2 cell2 * coeffMatrix2 cell2 = 1 := by
    rw [coeffMatrix2_eq_inv]
    exact Matrix.mul_nonsing_inv _ hu2
  have m2l : coeffMatrix2 cell2 * pointMatrix2 cell2 = 1 := by
    rw [coeffMatrix2_eq_inv]
    exact Matrix.nonsing_inv_mul _ hu2
  have m3 : pointMatrix3 cell3 * coeffMatrix3 cell3 = 1 := by
    rw [coeffMatrix3_eq_inv]
    exact Matrix.mul_nonsing_inv _ hu3
  have m3l : coeffMatrix3 cell3 * pointMatrix3 cell3 = 1 := by
    rw [coeffMatrix3_eq_inv]
    exact Matrix.nonsing_inv_mul _ hu3
  refine ⟨⟨m2, m2l, ?_⟩, ⟨m3, m3l, ?_⟩⟩
  · intro v w
    have hmul : (pointMatrix2 cell2 * coeffMatrix2 cell2) w v =
        (1 : Matrix (Fin 4) (Fin 4) ℚ) w v := by rw [m2]
    rw [Matrix.mul_apply] at hmul
    have hsum : traceValue2 (coeffMatrix2 cell2) v (cell2 w) =
        ∑ r : Fin 4, pointMatrix2 cell2 w r * coeffMatrix2 cell2 r v := by
      rw [traceValue2_eq_sum]
      rfl
    rw [hsum, hmul, Matrix.one_apply]
    by_cases hvw : v = w <;> simp [hvw, eq_comm]
  · intro v w
    have hmul : (pointMatrix3 cell3 * coeffMatrix3 cell3) w v =
        (1 : Matrix (Fin 8) (Fin 8) ℚ) w v := by rw [m3]
    rw [Matrix.mul_apply] at hmul
    have hsum : traceValue3 (coeffMatrix3 cell3) v (cell3 w) =
        ∑ r : Fin 8, pointMatrix3 cell3 w r * coeffMatrix3 cell3 r v := by
      rw [traceValue3_eq_sum]
      rfl
    rw [hsum, hmul, Matrix.one_apply]
    by_cases hvw : v = w <;> simp [hvw, eq_comm]

/-- The unit square in the deal.II vertex ordering
`(0,0), (1,0), (0,1), (1,1)`, used as a concrete non-degenerate 2D cell. -/
def unitSquareCell : Fin 4 → ℚ × ℚ :=
  ![(0, 0), (1, 0), (0, 1), (1, 1)]

/-- The unit cube in the deal.II vertex ordering, used as a concrete
non-degenerate 3D cell. -/
def unitCubeCell : Fin 8 → ℚ × ℚ × ℚ :=
  ![(0, 0, 0), (1, 0, 0), (0, 1, 0), (1, 1, 0),
    (0, 0, 1), (1, 0, 1), (0, 1, 1), (1, 1, 1)]

/-- An explicit right inverse of `pointMatrix2 unitSquareCell` (column `v`
holds the coefficients of the bilinear shape function of vertex `v`). -/
def unitSquareInv : Matrix (Fin 4) (Fin 4) ℚ :=
  !![1, 0, 0, 0; -1, 1, 0, 0; -1, 0, 1, 0; 1, -1, -1, 1]

/-- An explicit right inverse of `pointMatrix3 unitCubeCell` (column `v`
holds the coefficients of the trilinear shape function of vertex `v`). -/
def unitCubeInv : Matrix (Fin 8) (Fin 8) ℚ :=
  !![1, 0, 0, 0, 0, 0, 0, 0;
     -1, 1, 0, 0, 0, 0, 0, 0;
     -1, 0, 1, 0, 0, 0, 0, 0;
     -1, 0, 0, 0, 1, 0, 0, 0;
     1, -1, -1, 1, 0, 0, 0, 0;
     1, 0, -1, 0, -1, 0, 1, 0;
     1, -1, 0, 0, -1, 1, 0, 0;
     -1, 1, 1, -1, 1, -1, -1, 1]

lemma unitSquare_right_inverse :
    pointMatrix2 unitSquareCell * unitSquareInv = 1 := by
  ext i j
  fin_cases i <;> fin_cases j <;>
    norm_num [pointMatrix2, unitSquareCell, unitSquareInv, mono2,
      Matrix.mul_apply, Fin.sum_univ_succ, Matrix.one_apply, Fin.ext_iff]

lemma unitCube_right_inverse :
    pointMatrix3 unitCubeCell * unitCubeInv = 1 := by
  ext i j
  fin_cases i <;> fin_cases j <;>
    norm_num [pointMatrix3, unitCubeCell, unitCubeInv, mono3,
      Matrix.mul_apply, Fin.sum_univ_succ, Matrix.one_apply, Fin.ext_iff]

/-- Witness for C1: the unit square and the unit cube have invertible
vertex-monomial matrices, and the conclusion of the claim holds there. -/
theorem basisQ1_coeff_matrix_inverse_and_delta_witness :
    ((pointMatrix2 unitSquareCell).det ≠ 0 ∧
      (pointMatrix3 unitCubeCell).det ≠ 0) ∧
    ((pointMatrix2 unitSquareCell * coeffMatrix2 unitSquareCell = 1 ∧
        coeffMatrix2 unitSquareCell * pointMatrix2 unitSquareCell = 1 ∧
        ∀ v w : Fin 4,
          traceValue2 (coeffMatrix2 unitSquareCell) v (unitSquareCell w) =
            if v = w then 1 else 0) ∧
      (pointMatrix3 unitCubeCell * coeffMatrix3 unitCubeCell = 1 ∧
        coeffMatrix3 unitCubeCell * pointMatrix3 unitCubeCell = 1 ∧
        ∀ v w : Fin 8,
          traceValue3 (coeffMatrix3 unitCubeCell) v (unitCubeCell w) =
            if v = w then 1 else 0)) :=
  have h2 : (pointMatrix2 unitSquareCell).det ≠ 0 :=
    Matrix.det_ne_zero_of_right_inverse unitSquare_right_inverse
  have h3 : (pointMatrix3 unitCubeCell).det ≠ 0 :=
    Matrix.det_ne_zero_of_right_inverse unitCube_right_inverse
  ⟨⟨h2, h3⟩,
    basisQ1_coeff_matrix_inverse_and_delta unitSquareCell unitCubeCell h2 h3⟩

/-- State of a `BasisQ1<2>` object (`basis_funs.h`): the active basis index
`index_basis` and the 4×4 `coeff_matrix`. -/
structure BasisQ1_2 where
  index_basis : Fin 4
  coeff_matrix : Matrix (Fin 4) (Fin 4) ℚ

/-- State of a `BasisQ1<3>` object: the active basis index `index_basis` and
the 8×8 `coeff_matrix`. -/
structure BasisQ1_3 where
  index_basis : Fin 8
  coeff_matrix : Matrix (Fin 8) (Fin 8) ℚ

/-- The cell constructor `BasisQ1<2>::BasisQ1(cell)` (`basis_funs.tpp`
lines 18–39): `index_basis = 0`, `coeff_matrix = point_matrix⁻¹`. -/
def BasisQ1_2.ofCell (cell : Fin 4 → ℚ × ℚ) : BasisQ1_2 :=
  ⟨0, coeffMatrix2 cell⟩

/-- The cell constructor `BasisQ1<3>::BasisQ1(cell)` (`basis_funs.tpp`
lines 42–67). -/
def BasisQ1_3.ofCell (cell : Fin 8 → ℚ × ℚ × ℚ) : BasisQ1_3 :=
  ⟨0, coeffMatrix3 cell⟩

/-- The copy constructor `BasisQ1<dim>::BasisQ1(const BasisQ1&)`
(`basis_funs.tpp` lines 10–15), 2D instance: `index_basis(0)`,
`coeff_matrix(basis.coeff_matrix)`. -/
def BasisQ1_2.copy (b : BasisQ1_2) : BasisQ1_2 :=
  ⟨0, b.coeff_matrix⟩

/-- The copy constructor, 3D instance. -/
def BasisQ1_3.copy (b : BasisQ1_3) : BasisQ1_3 :=
  ⟨0, b.coeff_matrix⟩

/-- `BasisQ1<dim>::set_index` (`basis_funs.tpp` lines 70–75), 2D instance. -/
def BasisQ1_2.set_index (b : BasisQ1_2) (i : Fin 4) : BasisQ1_2 :=
  ⟨i, b.coeff_matrix⟩

/-- `BasisQ1<dim>::set_index`, 3D instance. -/
def BasisQ1_3.set_index (b : BasisQ1_3) (i : Fin 8) : BasisQ1_3 :=
  ⟨i, b.coeff_matrix⟩

/-- `BasisQ1<2>::vector_value` (`basis_funs.tpp` lines 78–90): computes the
scalar polynomial value once and writes it into components 0 and 1 of the
output vector. -/
def BasisQ1_2.vector_value (b : BasisQ1_2) (p : ℚ × ℚ)
    (out : Fin 2 → ℚ) : Fin 2 → ℚ :=
  let value := traceValue2 b.coeff_matrix b.index_basis p
  Function.update (Function.update out 0 value) 1 value

/-- `BasisQ1<3>::vector_value` (`basis_funs.tpp` lines 93–110): computes the
scalar polynomial value once and writes it into components 0, 1 and 2. -/
def BasisQ1_3.vector_value (b : BasisQ1_3) (p : ℚ × ℚ × ℚ)
    (out : Fin 3 → ℚ) : Fin 3 → ℚ :=
  let value := traceValue3 b.coeff_matrix b.index_basis p
  Function.update (Function.update (Function.update out 0 value) 1 value)
    2 value

/-- The vector returned by `BasisQ1<2>::vector_value` on a freshly
zero-initialised output vector. -/
def BasisQ1_2.eval (b : BasisQ1_2) (p : ℚ × ℚ) : Fin 2 → ℚ :=
  b.vector_value p fun _ => 0

/-- The vector returned by `BasisQ1<3>::vector_value` on a freshly
zero-initialised output vector. -/
def BasisQ1_3.eval (b : BasisQ1_3) (p : ℚ × ℚ × ℚ) : Fin 3 → ℚ :=
  b.vector_value p fun _ => 0

lemma BasisQ1_2.eval_apply2 (b : BasisQ1_2) (p : ℚ × ℚ) (c : Fin 2) :
    b.eval p c = traceValue2 b.coeff_matrix b.index_basis p := by
  fin_cases c <;>
    simp [BasisQ1_2.eval, BasisQ1_2.vector_value, Function.update]

lemma BasisQ1_3.eval_apply3 (b : BasisQ1_3) (p : ℚ × ℚ × ℚ) (c : Fin 3) :
    b.eval p c = traceValue3 b.coeff_matrix b.index_basis p := by
  fin_cases c <;>
    simp [BasisQ1_3.eval, BasisQ1_3.vector_value, Function.update]

lemma BasisQ1_2.vector_value_overwrites2 (b : BasisQ1_2) (p : ℚ × ℚ)
    (out : Fin 2 → ℚ) : b.vector_value p out = b.eval p := by
  funext c
  fin_cases c <;>
    simp [BasisQ1_2.eval, BasisQ1_2.vector_value, Function.update]

lemma BasisQ1_3.vector_value_overwrites3 (b : BasisQ1_3) (p : ℚ × ℚ × ℚ)
    (out : Fin 3 → ℚ) : b.vector_value p out = b.eval p := by
  funext c
  fin_cases c <;>
    simp [BasisQ1_3.eval, BasisQ1_3.vector_value, Function.update]

/-- C8: copy-constructing a `BasisQ1` copies the coefficient matrix
unchanged, resets the active index to 0 regardless of the index selected on
the source, hence the copy evaluates trace 0 until `set_index` is called,
after which it behaves like the source with that index — in 2D and 3D. -/
theorem basisQ1_copy_resets_index (b2 : BasisQ1_2) (b3 : BasisQ1_3) :
    (b2.copy.coeff_matrix = b2.coeff_matrix ∧
      b2.copy.index_basis = 0 ∧
      (∀ p out, b2.copy.vector_value p out =
        (b2.set_index 0).vector_value p out) ∧
      ∀ i, b2.copy.set_index i = b2.set_index i) ∧
    (b3.copy.coeff_matrix = b3.coeff_matrix ∧
      b3.copy.index_basis = 0 ∧
      (∀ p out, b3.copy.vector_value p out =
        (b3.set_index 0).vector_value p out) ∧
      ∀ i, b3.copy.set_index i = b3.set_index i) :=
  ⟨⟨rfl, rfl, fun _ _ => rfl, fun _ => rfl⟩,
    ⟨rfl, rfl, fun _ _ => rfl, fun _ => rfl⟩⟩

/-- The local vertex `⌊k/dim⌋` associated with local coarse DoF `k` in 2D
(`dim = 2`, `N_c = 8`). -/
def vertexOf2 (k : Fin 8) : Fin 4 :=
  ⟨(k : ℕ) / 2, by omega⟩

/-- The local vertex `⌊k/dim⌋` associated with local coarse DoF `k` in 3D
(`dim = 3`, `N_c = 24`). -/
def vertexOf3 (k : Fin 24) : Fin 8 :=
  ⟨(k : ℕ) / 3, by omega⟩

/-- Modelled from the spec: the local basis solver (`ElaBasis`, spec §4.3,
whose sources are not under `src/`) builds the `k`-th vector-valued Dirichlet
trace by selecting vertex `⌊k/dim⌋` on the `BasisQ1` object and keeping only
component `k mod dim` of `BasisQ1<2>::vector_value`, all other components
being 0. -/
def dirichletTrace2 (cell : Fin 4 → ℚ × ℚ) (k : Fin 8) (x : ℚ × ℚ) :
    Fin 2 → ℚ :=
  fun c =>
    if (c : ℕ) = (k : ℕ) % 2 then
      ((BasisQ1_2.ofCell cell).set_index (vertexOf2 k)).eval x c
    else 0

/-- Modelled from the spec: the 3D analogue of `dirichletTrace2`, keeping
only component `k mod 3` of `BasisQ1<3>::vector_value`. -/
def dirichletTrace3 (cell : Fin 8 → ℚ × ℚ × ℚ) (k : Fin 24)
    (x : ℚ × ℚ × ℚ) : Fin 3 → ℚ :=
  fun c =>
    if (c : ℕ) = (k : ℕ) % 3 then
      ((BasisQ1_3.ofCell cell).set_index (vertexOf3 k)).eval x c
    else 0

/-- C2: for each local coarse DoF `k`, the vector-valued Q1 Dirichlet trace
evaluates at every point `x` to the scalar trace polynomial of vertex
`⌊k/dim⌋` in component `k mod dim` and to 0 in every other component, in 2D
and 3D. -/
theorem msfem_dirichlet_trace_components
    (cell2 : Fin 4 → ℚ × ℚ) (cell3 : Fin 8 → ℚ × ℚ × ℚ)
    (k2 : Fin 8) (k3 : Fin 24) (x2 : ℚ × ℚ) (x3 : ℚ × ℚ × ℚ)
    (c2 : Fin 2) (c3 : Fin 3) :
    (dirichletTrace2 cell2 k2 x2 c2 =
      if (c2 : ℕ) = (k2 : ℕ) % 2 then
        traceValue2 (coeffMatrix2 cell2) (vertexOf2 k2) x2
      else 0) ∧
    (dirichletTrace3 cell3 k3 x3 c3 =
      if (c3 : ℕ) = (k3 : ℕ) % 3 then
        traceValue3 (coeffMatrix3 cell3) (vertexOf3 k3) x3
      else 0) := by
  constructor
  · by_cases h : (c2 : ℕ) = (k2 : ℕ) % 2 <;>
      simp [dirichletTrace2, h, BasisQ1_2.eval_apply2, BasisQ1_2.set_index,
        BasisQ1_2.ofCell]
  · by_cases h : (c3 : ℕ) = (k3 : ℕ) % 3 <;>
      simp [dirichletTrace3, h, BasisQ1_3.eval_apply3, BasisQ1_3.set_index,
        BasisQ1_3.ofCell]

/-- `BasisQ1<2>::vector_value_list` (`basis_funs.tpp` lines 113–125): under
the asserted precondition `points.size() == values.size()`, slot `p` of
`values` is overwritten by `vector_value(points[p], values[p])`. -/
def BasisQ1_2.vector_value_list (b : BasisQ1_2) :
    List (ℚ × ℚ) → List (Fin 2 → ℚ) → List (Fin 2 → ℚ)
  | [], values => values
  | _ :: _, [] => []
  | q :: qs, v :: vs => b.vector_value q v :: b.vector_value_list qs vs

/-- `BasisQ1<3>::vector_value_list` (`basis_funs.tpp` lines 128–140). -/
def BasisQ1_3.vector_value_list (b : BasisQ1_3) :
    List (ℚ × ℚ × ℚ) → List (Fin 3 → ℚ) → List (Fin 3 → ℚ)
  | [], values => values
  | _ :: _, [] => []
  | q :: qs, v :: vs => b.vector_value q v :: b.vector_value_list qs vs

/-- `BasisQ1<2>::tensor_value_list` (`basis_funs.tpp` lines 143–160): resets
a temporary vector to 0, calls `vector_value` on it, and copies its two
components into slot `p` of `values`. -/
def BasisQ1_2.tensor_value_list (b : BasisQ1_2) :
    List (ℚ × ℚ) → List (Fin 2 → ℚ) → List (Fin 2 → ℚ)
  | [], values => values
  | _ :: _, [] => []
  | q :: qs, v :: vs =>
    let tmp := b.vector_value q fun _ => 0
    Function.update (Function.update v 0 (tmp 0)) 1 (tmp 1) ::
      b.tensor_value_list qs vs

/-- `BasisQ1<3>::tensor_value_list` (`basis_funs.tpp` lines 163–181). -/
def BasisQ1_3.tensor_value_list (b : BasisQ1_3) :
    List (ℚ × ℚ × ℚ) → List (Fin 3 → ℚ) → List (Fin 3 → ℚ)
  | [], values => values
  | _ :: _, [] => []
  | q :: qs, v :: vs =>
    let tmp := b.vector_value q fun _ => 0
    Function.update (Function.update (Function.update v 0 (tmp 0)) 1 (tmp 1))
      2 (tmp 2) ::
      b.tensor_value_list qs vs

lemma BasisQ1_2.tensor_copy_eq2 (b : BasisQ1_2) (q : ℚ × ℚ)
    (v : Fin 2 → ℚ) :
    (Function.update (Function.update v 0 (b.eval q 0)) 1 (b.eval q 1)) =
      b.eval q := by
  funext c
  fin_cases c <;> simp [Function.update]

lemma BasisQ1_3.tensor_copy_eq3 (b : BasisQ1_3) (q : ℚ × ℚ × ℚ)
    (v : Fin 3 → ℚ) :
    (Function.update
        (Function.update (Function.update v 0 (b.eval q 0)) 1 (b.eval q 1))
        2 (b.eval q 2)) =
      b.eval q := by
  funext c
  fin_cases c <;> simp [Function.update]

lemma BasisQ1_2.vector_value_list_map2 (b : BasisQ1_2) :
    ∀ (points : List (ℚ × ℚ)) (values : List (Fin 2 → ℚ)),
      points.length = values.length →
      b.vector_value_list points values = points.map b.eval := by
  intro points
  induction points with
  | nil =>
    intro values h
    have hv : values = [] := by
      cases values with
      | nil => rfl
      | cons v vs => simp at h
    subst hv
    rfl
  | cons q qs ih =>
    intro values h
    match values with
    | [] => simp at h
    | v :: vs =>
      simp only [BasisQ1_2.vector_value_list, List.map_cons,
        b.vector_value_overwrites2 q v]
      rw [ih vs (by simpa using h)]

lemma BasisQ1_3.vector_value_list_map3 (b : BasisQ1_3) :
    ∀ (points : List (ℚ × ℚ × ℚ)) (values : List (Fin 3 → ℚ)),
      points.length = values.length →
      b.vector_value_list points values = points.map b.eval := by
  intro points
  induction points with
  | nil =>
    intro values h
    have hv : values = [] := by
      cases values with
      | nil => rfl
      | cons v vs => simp at h
    subst hv
    rfl
  | cons q qs ih =>
    intro values h
    match values with
    | [] => simp at h
    | v :: vs =>
      simp only [BasisQ1_3.vector_value_list, List.map_cons,
        b.vector_value_overwrites3 q v]
      rw [ih vs (by simpa using h)]

lemma BasisQ1_2.tensor_value_list_map2 (b : BasisQ1_2) :
    ∀ (points : List (ℚ × ℚ)) (values : List (Fin 2 → ℚ)),
      points.length = values.length →
      b.tensor_value_list points values = points.map b.eval := by
  intro points
  induction points with
  | nil =>
    intro values h
    have hv : values = [] := by
      cases values with
      | nil => rfl
      | cons v vs => simp at h
    subst hv
    rfl
  | cons q qs ih =>
    intro values h
    match values with
    | [] => simp at h
    | v :: vs =>
      simp only [BasisQ1_2.tensor_value_list, List.map_cons]
      rw [ih vs (by simpa using h)]
      congr 1
      exact b.tensor_copy_eq2 q v

lemma BasisQ1_3.tensor_value_list_map3 (b : BasisQ1_3) :
    ∀ (points : List (ℚ × ℚ × ℚ)) (values : List (Fin 3 → ℚ)),
      points.length = values.length →
      b.tensor_value_list points values = points.map b.eval := by
  intro points
  induction points with
  | nil =>
    intro values h
    have hv : values = [] := by
      cases values with
      | nil => rfl
      | cons v vs => simp at h
    subst hv
    rfl
  | cons q qs ih =>
    intro values h
    match values with
    | [] => simp at h
    | v :: vs =>
      simp only [BasisQ1_3.tensor_value_list, List.map_cons]
      rw [ih vs (by simpa using h)]
      congr 1
      exact b.tensor_copy_eq3 q v

/-- C9: under the asserted precondition that the point list and the output
list have equal length, `vector_value_list` and `tensor_value_list` set the
`p`-th output exactly to `vector_value` applied to the `p`-th point, in 2D
and in 3D: batched evaluation equals elementwise pointwise evaluation. -/
theorem basisQ1_value_lists_pointwise (b2 : BasisQ1_2) (b3 : BasisQ1_3)
    (pts2 : List (ℚ × ℚ)) (vals2 : List (Fin 2 → ℚ))
    (pts3 : List (ℚ × ℚ × ℚ)) (vals3 : List (Fin 3 → ℚ))
    (h2 : pts2.length = vals2.length) (h3 : pts3.length = vals3.length) :
    b2.vector_value_list pts2 vals2 = pts2.map b2.eval ∧
    b2.tensor_value_list pts2 vals2 = pts2.map b2.eval ∧
    b3.vector_value_list pts3 vals3 = pts3.map b3.eval ∧
    b3.tensor_value_list pts3 vals3 = pts3.map b3.eval :=
  ⟨b2.vector_value_list_map2 pts2 vals2 h2,
    b2.tensor_value_list_map2 pts2 vals2 h2,
    b3.vector_value_list_map3 pts3 vals3 h3,
    b3.tensor_value_list_map3 pts3 vals3 h3⟩

/-- Witness for C9 at concrete one-element lists. -/
theorem basisQ1_value_lists_pointwise_witness :
    ([(0, 0)] : List (ℚ × ℚ)).length = ([fun _ => 0] :
        List (Fin 2 → ℚ)).length ∧
    ([(0, 0, 0)] : List (ℚ × ℚ × ℚ)).length = ([fun _ => 0] :
        List (Fin 3 → ℚ)).length ∧
    ((BasisQ1_2.ofCell unitSquareCell).vector_value_list [(0, 0)]
        [fun _ => 0] =
      ([(0, 0)] : List (ℚ × ℚ)).map (BasisQ1_2.ofCell unitSquareCell).eval ∧
    (BasisQ1_2.ofCell unitSquareCell).tensor_value_list [(0, 0)]
        [fun _ => 0] =
      ([(0, 0)] : List (ℚ × ℚ)).map (BasisQ1_2.ofCell unitSquareCell).eval ∧
    (BasisQ1_3.ofCell unitCubeCell).vector_value_list [(0, 0, 0)]
        [fun _ => 0] =
      ([(0, 0, 0)] : List (ℚ × ℚ × ℚ)).map
        (BasisQ1_3.ofCell unitCubeCell).eval ∧
    (BasisQ1_3.ofCell unitCubeCell).tensor_value_list [(0, 0, 0)]
        [fun _ => 0] =
      ([(0, 0, 0)] : List (ℚ × ℚ × ℚ)).map
        (BasisQ1_3.ofCell unitCubeCell).eval) :=
  ⟨rfl, rfl,
    basisQ1_value_lists_pointwise (BasisQ1_2.ofCell unitSquareCell)
      (BasisQ1_3.ofCell unitCubeCell) [(0, 0)] [fun _ => 0]
      [(0, 0, 0)] [fun _ => 0] rfl rfl⟩

/-- The three ways the argument handling in `main.cxx` exits with code 1:
no argument at all (lines 7–12), a trailing `-p` (lines 26–31), and an
argument that is not part of a `-p <filename>` pair (lines 39–44). -/
inductive CliError where
  | missingInput : CliError
  | missingFilename : CliError
  | unknownOption : String → CliError
deriving DecidableEq

/-- The `while (args.size())` loop of `main.cxx` (lines 22–45): `acc` holds
the current value of `input_file`.  A leading `-p` consumes the following
argument as the new `input_file`; a trailing `-p` and any other leading
argument exit with an error. -/
def parseLoop : List String → String → Except CliError String
  | [], acc => .ok acc
  | [a], _ =>
    if a = "-p" then .error .missingFilename
    else .error (.unknownOption a)
  | a :: f :: rest, _ =>
    if a = "-p" then parseLoop rest f
    else .error (.unknownOption a)

/-- The argument handling of `main.cxx`: `argc < 2` (an empty argument list)
exits immediately (lines 7–12), otherwise the `while` loop runs with
`input_file = ""` (line 14). -/
def parseArgs (args : List String) : Except CliError String :=
  if args.isEmpty then .error .missingInput
  else parseLoop args ""

/-- `true` iff the argument handling of `main.cxx` calls `exit(1)` before
any solver work starts. -/
def cliParseExits (args : List String) : Bool :=
  match parseArgs args with
  | .error _ => true
  | .ok _ => false

/-- Outcome of the `try` block of `main.cxx` (lines 46–106): it either
completes, or a `std::exception` escapes, or an unknown exception escapes. -/
inductive RunOutcome where
  | ok : RunOutcome
  | stdExc : String → RunOutcome
  | unknownExc : RunOutcome
deriving DecidableEq

/-- The exit code and banner behaviour of the `try`/`catch` part of
`main.cxx` (lines 46–132): a caught exception prints the dashed banner and
returns 1; a completed run returns 0 when the dimension is 2 or 3 and calls
`exit(1)` otherwise (lines 92–105).  First component: exit code; second:
whether the banner was printed. -/
def runResult (dim : ℤ) (outcome : RunOutcome) : ℕ × Bool :=
  match outcome with
  | .stdExc _ => (1, true)
  | .unknownExc => (1, true)
  | .ok => if dim = 2 ∨ dim = 3 then (0, false) else (1, false)

/-- The exit code of `main`: argument-handling errors exit with 1 before the
`try` block; otherwise the `try`/`catch` result decides. -/
def mainExitCode (args : List String) (dim : ℤ) (outcome : RunOutcome) : ℕ :=
  match parseArgs args with
  | .error _ => 1
  | .ok _ => (runResult dim outcome).1

/-- Whether `main` prints the dashed exception banner. -/
def mainBanner (args : List String) (dim : ℤ) (outcome : RunOutcome) : Bool :=
  match parseArgs args with
  | .error _ => false
  | .ok _ => (runResult dim outcome).2

/-- The command line built from one `-p <filename>` pair per element of
`fs`. -/
def pairArgs : List String → List String
  | [] => []
  | f :: fs => "-p" :: f :: pairArgs fs

lemma parseLoop_pairArgs_append (fs : List String) (rest : List String)
    (acc : String) :
    parseLoop (pairArgs fs ++ rest) acc =
      parseLoop rest (fs.getLastD acc) := by
  induction fs generalizing acc with
  | nil => rfl
  | cons f fs ih =>
    rw [pairArgs, List.cons_append, List.cons_append]
    rw [show parseLoop ("-p" :: f :: (pairArgs fs ++ rest)) acc =
        parseLoop (pairArgs fs ++ rest) f from by
      simp [parseLoop]]
    rw [ih f, List.getLastD_cons]

lemma parseLoop_unknown (a : String) (h : a ≠ "-p") (rest : List String)
    (acc : String) :
    parseLoop (a :: rest) acc = .error (.unknownOption a) := by
  cases rest with
  | nil => simp [parseLoop, h]
  | cons r rs => simp [parseLoop, h]

lemma pairArgs_append (fs gs : List String) :
    pairArgs (fs ++ gs) = pairArgs fs ++ pairArgs gs := by
  induction fs with
  | nil => rfl
  | cons f fs ih => simp [pairArgs, ih]

/-- C5: a command line missing the parameter-file argument — no arguments at
all, or well-formed `-p` pairs followed by a `-p` with no filename — makes
`main.cxx` exit with code 1 before any solver work starts (the exit code is
1 for every dimension and every would-be run outcome). -/
theorem cli_missing_parameter_file_exits_one :
    (parseArgs [] = .error .missingInput ∧
      cliParseExits [] = true ∧
      ∀ (dim : ℤ) (outcome : RunOutcome), mainExitCode [] dim outcome = 1) ∧
    ∀ fs : List String,
      parseArgs (pairArgs fs ++ ["-p"]) = .error .missingFilename ∧
      cliParseExits (pairArgs fs ++ ["-p"]) = true ∧
      ∀ (dim : ℤ) (outcome : RunOutcome),
        mainExitCode (pairArgs fs ++ ["-p"]) dim outcome = 1 := by
  refine ⟨⟨rfl, rfl, fun dim outcome => rfl⟩, fun fs => ?_⟩
  have hne : (pairArgs fs ++ ["-p"]).isEmpty = false := by
    cases fs <;> simp [pairArgs]
  have hp : parseArgs (pairArgs fs ++ ["-p"]) = .error .missingFilename := by
    rw [parseArgs, hne]
    simp only [Bool.false_eq_true, if_false]
    rw [parseLoop_pairArgs_append]
    simp [parseLoop]
  refine ⟨hp, ?_, fun dim outcome => ?_⟩
  · rw [cliParseExits, hp]
  · rw [mainExitCode, hp]

/-- C6: a command line whose first argument after any well-formed
`-p <filename>` pairs is not `-p` makes `main.cxx` report it as an unknown
command line option and exit with code 1. -/
theorem cli_unknown_option_exits_one (fs : List String) (a : String)
    (rest : List String) (h : a ≠ "-p") :
    parseArgs (pairArgs fs ++ a :: rest) = .error (.unknownOption a) ∧
    cliParseExits (pairArgs fs ++ a :: rest) = true ∧
    ∀ (dim : ℤ) (outcome : RunOutcome),
      mainExitCode (pairArgs fs ++ a :: rest) dim outcome = 1 := by
  have hne : (pairArgs fs ++ a :: rest).isEmpty = false := by
    cases fs <;> simp [pairArgs]
  have hp : parseArgs (pairArgs fs ++ a :: rest) =
      .error (.unknownOption a) := by
    rw [parseArgs, hne]
    simp only [Bool.false_eq_true, if_false]
    rw [parseLoop_pairArgs_append, parseLoop_unknown a h]
  refine ⟨hp, ?_, fun dim outcome => ?_⟩
  · rw [cliParseExits, hp]
  · rw [mainExitCode, hp]

/-- Witness for C6: the single unknown option `-q` exits with code 1. -/
theorem cli_unknown_option_exits_one_witness :
    ("-q" ≠ "-p") ∧
    (parseArgs ["-q"] = .error (.unknownOption "-q") ∧
      cliParseExits ["-q"] = true ∧
      ∀ (dim : ℤ) (outcome : RunOutcome),
        mainExitCode ["-q"] dim outcome = 1) :=
  ⟨by decide, by
    have h := cli_unknown_option_exits_one [] "-q" [] (by decide)
    simpa [pairArgs] using h⟩

/-- C7: once the argument handling has succeeded, any exception (known or
unknown) escaping the run makes `main` print the banner and return exit code
1, and a completed run returns 0 when the dimension is 2 or 3. -/
theorem main_exception_and_success_exit_codes (args : List String)
    (file : String) (dim : ℤ) (outcome : RunOutcome)
    (hparse : parseArgs args = .ok file) :
    (outcome ≠ .ok →
      mainExitCode args dim outcome = 1 ∧ mainBanner args dim outcome = true) ∧
    (outcome = .ok → (dim = 2 ∨ dim = 3) →
      mainExitCode args dim outcome = 0) := by
  constructor
  · intro hout
    cases outcome with
    | ok => exact absurd rfl hout
    | stdExc msg => simp [mainExitCode, mainBanner, hparse, runResult]
    | unknownExc => simp [mainExitCode, mainBanner, hparse, runResult]
  · intro hout hdim
    subst hout
    simp [mainExitCode, hparse, runResult, hdim]

/-- Witness for C7 at the command line `-p a`: an unknown exception returns
exit code 1 with the banner, and a completed 2D run returns 0. -/
theorem main_exception_and_success_exit_codes_witness :
    parseArgs ["-p", "a"] = .ok "a" ∧
    (mainExitCode ["-p", "a"] 2 .unknownExc = 1 ∧
      mainBanner ["-p", "a"] 2 .unknownExc = true) ∧
    mainExitCode ["-p", "a"] 2 .ok = 0 :=
  have hparse : parseArgs ["-p", "a"] = .ok "a" := rfl
  ⟨hparse,
    (main_exception_and_success_exit_codes ["-p", "a"] "a" 2 .unknownExc
      hparse).1 (by decide),
    (main_exception_and_success_exit_codes ["-p", "a"] "a" 2 .ok
      hparse).2 rfl (Or.inl rfl)⟩

/-- C10: a command line of one or more well-formed `-p <filename>` pairs
parses successfully without exiting, and the parameter file used is the
filename of the last pair — earlier filenames are silently overridden. -/
theorem cli_last_pair_wins (fs : List String) (f : String) :
    parseArgs (pairArgs (fs ++ [f])) = .ok f ∧
    cliParseExits (pairArgs (fs ++ [f])) = false := by
  have hne : (pairArgs (fs ++ [f])).isEmpty = false := by
    cases fs <;> simp [pairArgs]
  have hp : parseArgs (pairArgs (fs ++ [f])) = .ok f := by
    rw [parseArgs, hne]
    simp only [Bool.false_eq_true, if_false]
    rw [pairArgs_append, ← List.append_nil (pairArgs fs ++ pairArgs [f]),
      List.append_assoc, parseLoop_pairArgs_append]
    simp [pairArgs, parseLoop]
  exact ⟨hp, by rw [cliParseExits, hp]⟩

/-- The gravitational acceleration constant `grav = 9.81` of the `BodyForce`
class (`forces_and_lame_parameters.h` line 125). -/
def grav : ℚ := 981 / 100

/-- State of a `BodyForce<dim>` object: the mass density `rho` and the
precomputed `force_value` member. -/
structure BodyForce where
  rho : ℚ
  force_value : ℚ

/-- The `BodyForce` constructor (`forces_and_lame_parameters.h` lines
73–77): stores `rho` and `force_value = grav * rho`. -/
def BodyForce.init (rho : ℚ) : BodyForce :=
  ⟨rho, grav * rho⟩

/-- Modelled from the spec: the implementation of `BodyForce::vector_value`
is not under `src/` (only its declaration is); the spec states
`BodyForce = ρ · g · ê_down` (constant), a downward force that is nonzero
only in the last component and independent of the evaluation point. -/
def BodyForce.vector_value (dim : ℕ) (bf : BodyForce) (_p : Fin dim → ℚ) :
    Fin dim → ℚ :=
  fun c => if (c : ℕ) = dim - 1 then -bf.force_value else 0

/-- C3: for every mass density `rho` and every evaluation point, the body
force density is the constant vector with value `-(9.81 · rho)` in the last
component and 0 elsewhere, independent of the point. -/
theorem bodyForce_constant_downward (dim : ℕ) (rho : ℚ)
    (p q : Fin dim → ℚ) :
    (∀ c : Fin dim,
      (BodyForce.init rho).vector_value dim p c =
        if (c : ℕ) = dim - 1 then -(981 / 100 * rho) else 0) ∧
    (BodyForce.init rho).vector_value dim p =
      (BodyForce.init rho).vector_value dim q :=
  ⟨fun _ => rfl, rfl⟩

/-- The material-structure flag set of `LamePrm`
(`forces_and_lame_parameters.h` lines 203–218): the four entries of the
`material_structure` map, of which only one may be true. -/
structure MaterialFlags where
  oscillations : Bool
  horizontal_layers : Bool
  vertical_layers : Bool
  y_layers : Bool
deriving DecidableEq

/-- Exactly one of the four structure flags is true. -/
def MaterialFlags.admissible (f : MaterialFlags) : Prop :=
  f.oscillations.toNat + f.horizontal_layers.toNat +
    f.vertical_layers.toNat + f.y_layers.toNat = 1

/-- The index of the layer containing coordinate `x` when the axis interval
`[a, b]` is split into `n` equal strips, clamped to the valid range. -/
def layerIndex (n : ℕ) (a b x : ℚ) : ℕ :=
  min (n - 1) (Int.toNat ⌊(x - a) * n / (b - a)⌋)

/-- The deterministic alternating per-layer value: `mean/2` on even layers
and `3·mean/2` on odd layers, so that the arithmetic mean over an even
number of layers equals `mean`. -/
def layerLambda (mean : ℚ) (i : ℕ) : ℚ :=
  if i % 2 = 0 then mean / 2 else 3 * mean / 2

/-- Modelled from the spec: the implementation of `LamePrm::value` is not
under `src/` (only its declaration, `forces_and_lame_parameters.h` lines
190–191, is).  Spec §4.2: for *oscillations*,
`λ(p) = mean · (1 + α · sin(fr · ⟨k, p⟩))` with a design-choice amplitude
(here `α = 1/2`, with the sine passed in as a bounded function `s`); for the
three *layered* modes, the relevant axis of `[p1, p2]` is split into equal
strips carrying a deterministic alternating value with arithmetic mean
`mean`.  `horizontal layers` are layers in x-direction (header line 210),
`y-layers` in y-direction, `vertical layers` in the remaining (z)
direction. -/
def lamePrmValue (s : ℚ → ℚ) (f : MaterialFlags) (n_x n_y n_z : ℕ)
    (fr mean : ℚ) (p1 p2 p : ℚ × ℚ × ℚ) : ℚ :=
  if f.oscillations then mean * (1 + 1 / 2 * s (fr * p.1))
  else if f.horizontal_layers then
    layerLambda mean (layerIndex n_x p1.1 p2.1 p.1)
  else if f.y_layers then
    layerLambda mean (layerIndex n_y p1.2.1 p2.2.1 p.2.1)
  else if f.vertical_layers then
    layerLambda mean (layerIndex n_z p1.2.2 p2.2.2 p.2.2)
  else 0

/-- C4: for every admissible material-structure configuration (exactly one
flag true, positive mean, at least one layer per direction, bounded
oscillation profile) and every point `p` of the domain `[p1, p2]`, the Lamé
parameter is strictly positive. -/
theorem lamePrm_value_positive (s : ℚ → ℚ) (f : MaterialFlags)
    (n_x n_y n_z : ℕ) (fr mean : ℚ) (p1 p2 p : ℚ × ℚ × ℚ)
    (hadm : f.admissible) (hmean : 0 < mean) (hs : ∀ x, |s x| ≤ 1)
    (_hnx : 1 ≤ n_x) (_hny : 1 ≤ n_y) (_hnz : 1 ≤ n_z)
    (_hdom : p1.1 ≤ p.1 ∧ p.1 ≤ p2.1 ∧ p1.2.1 ≤ p.2.1 ∧ p.2.1 ≤ p2.2.1 ∧
      p1.2.2 ≤ p.2.2 ∧ p.2.2 ≤ p2.2.2) :
    0 < lamePrmValue s f n_x n_y n_z fr mean p1 p2 p := by
  have hlayer : ∀ i : ℕ, 0 < layerLambda mean i := by
    intro i
    rw [layerLambda]
    split_ifs <;> linarith
  rw [lamePrmValue]
  split_ifs with h1 h2 h3 h4
  · have hb := hs (fr * p.1)
    rw [abs_le] at hb
    have : (0 : ℚ) < 1 + 1 / 2 * s (fr * p.1) := by linarith [hb.1]
    exact mul_pos hmean this
  · exact hlayer _
  · exact hlayer _
  · exact hlayer _
  · exfalso
    simp only [Bool.not_eq_true] at h1 h2 h3 h4
    rw [MaterialFlags.admissible, h1, h2, h3, h4] at hadm
    simp at hadm

/-- Witness for C4: an oscillating structure with `mean = 1` and the zero
oscillation profile yields a positive Lamé parameter at the origin of the
unit cube. -/
theorem lamePrm_value_positive_witness :
    MaterialFlags.admissible ⟨true, false, false, false⟩ ∧ (0 : ℚ) < 1 ∧
    (∀ x : ℚ, |(fun _ : ℚ => (0 : ℚ)) x| ≤ 1) ∧
    0 < lamePrmValue (fun _ => 0) ⟨true, false, false, false⟩ 1 1 1 0 1
      (0, 0, 0) (1, 1, 1) (0, 0, 0) :=
  ⟨rfl, one_pos, fun x => by norm_num,
    lamePrm_value_positive (fun _ => 0) ⟨true, false, false, false⟩ 1 1 1 0 1
      (0, 0, 0) (1, 1, 1) (0, 0, 0) rfl one_pos
      (fun x => by norm_num) le_rfl le_rfl le_rfl
      (by norm_num)⟩
